import Mathlib

/-!
# Verification of the donation-collection backend (server.js)

Shallow embedding of the donation reconciliation ledger from `server.js`:
the `donations` table rows, the `/create-payment-intent` handler, the
`/webhook` handler, the `/admin-api/donations` reconciliation pass, and the
admin registration / login handlers.  External collaborators (the Stripe
payment processor, the SQLite store's failure behaviour, bcrypt) are
modelled as explicit parameters: an oracle for `paymentIntents.retrieve`,
`Except`/result parameters for fallible calls, and a password-check
predicate for `bcrypt.compare`.

JavaScript numbers are modelled as exact rationals (`ℚ`); `Math.round` is
`⌊q + 1/2⌋`, which matches JavaScript round-half-up semantics at every
input where the double computation is exact (in particular at the spec's
test points 12.345 and 10).
-/

/-- A row of the `donations` table (see the `CREATE TABLE donations` DDL). -/
structure DonationRecord where
  id : Nat
  donation_amount : Int
  email : String
  first_name : Option String
  last_name : Option String
  card_name : Option String
  country : Option String
  postal_code : Option String
  payment_intent_id : String
  payment_intent_status : String
  created_at : Nat
deriving DecidableEq, Repr

/-- A parsed (and, when a secret is configured, signature-verified) Stripe
webhook event: its `type` and the `data.object.id` of its payload. -/
structure StripeEvent where
  type : String
  objectId : String
deriving DecidableEq, Repr

/-- The webhook handler's acknowledgement body `res.json({ received: true })`. -/
structure WebhookAck where
  received : Bool
deriving DecidableEq, Repr

/-- The SQL `UPDATE donations SET payment_intent_status = ? WHERE payment_intent_id = ?`:
every row whose `payment_intent_id` matches gets the new status; all other
rows and all other columns are untouched. -/
def updateStatusByPid (store : List DonationRecord) (pid status : String) :
    List DonationRecord :=
  store.map fun r =>
    if r.payment_intent_id = pid then { r with payment_intent_status := status } else r

/-- The `/webhook` handler after the event has been accepted (parsed and, if a
secret is configured, signature-verified): on `payment_intent.succeeded` it
issues the status update for the payload's payment-intent id; on any other
event type it does nothing; in both cases it acknowledges with
`{ received: true }`. -/
def applyWebhookEvent (store : List DonationRecord) (event : StripeEvent) :
    List DonationRecord × WebhookAck :=
  if event.type = "payment_intent.succeeded" then
    (updateStatusByPid store event.objectId "succeeded", { received := true })
  else
    (store, { received := true })

theorem length_updateStatusByPid (store : List DonationRecord) (pid status : String) :
    (updateStatusByPid store pid status).length = store.length := by
  simp [updateStatusByPid]

theorem updateStatusByPid_getElem? (store : List DonationRecord) (pid status : String)
    (i : Nat) :
    (updateStatusByPid store pid status)[i]? =
      store[i]?.map (fun r =>
        if r.payment_intent_id = pid then { r with payment_intent_status := status } else r) := by
  simp [updateStatusByPid]

theorem updateStatusByPid_of_no_match (store : List DonationRecord) (pid status : String)
    (h : ∀ r ∈ store, r.payment_intent_id ≠ pid) :
    updateStatusByPid store pid status = store := by
  unfold updateStatusByPid
  induction store with
  | nil => rfl
  | cons a l ih =>
    simp only [List.map_cons]
    rw [if_neg (h a (List.mem_cons_self a l)), ih (fun r hr => h r (List.mem_cons_of_mem a hr))]

/-- C1: ApplyWebhookEvent postcondition.  For every store state and every
accepted webhook event: the acknowledgement is `{received: true}`; when the
event type is `payment_intent.succeeded`, every record whose
payment-authorization id matches the payload gets status `succeeded` with all
its other fields unchanged, and every record whose id does not match is
entirely unchanged (so if no record matches, the store is unchanged); for any
other event type the store is unchanged. -/
theorem applyWebhookEvent_spec (store : List DonationRecord) (event : StripeEvent) :
    ((applyWebhookEvent store event).2 = { received := true }) ∧
    ((applyWebhookEvent store event).1.length = store.length) ∧
    (event.type = "payment_intent.succeeded" →
      ∀ (i : Nat) (r : DonationRecord), store[i]? = some r →
        (r.payment_intent_id = event.objectId →
          (applyWebhookEvent store event).1[i]? =
            some { r with payment_intent_status := "succeeded" }) ∧
        (r.payment_intent_id ≠ event.objectId →
          (applyWebhookEvent store event).1[i]? = some r)) ∧
    (event.type = "payment_intent.succeeded" →
      (∀ r ∈ store, r.payment_intent_id ≠ event.objectId) →
      (applyWebhookEvent store event).1 = store) ∧
    (event.type ≠ "payment_intent.succeeded" →
      (applyWebhookEvent store event).1 = store) := by
  refine ⟨?_, ?_, ?_, ?_, ?_⟩
  · unfold applyWebhookEvent
    split <;> rfl
  · unfold applyWebhookEvent
    split
    · simp [length_updateStatusByPid]
    · rfl
  · intro htype i r hr
    have hfst : (applyWebhookEvent store event).1 =
        updateStatusByPid store event.objectId "succeeded" := by
      unfold applyWebhookEvent
      rw [if_pos htype]
    constructor
    · intro hm
      rw [hfst, updateStatusByPid_getElem?, hr]
      simp [hm]
    · intro hm
      rw [hfst, updateStatusByPid_getElem?, hr]
      simp [hm]
  · intro htype hnone
    unfold applyWebhookEvent
    rw [if_pos htype]
    exact updateStatusByPid_of_no_match store event.objectId "succeeded" hnone
  · intro htype
    unfold applyWebhookEvent
    rw [if_neg htype]

/-- Sample rows used to witness the webhook postcondition at concrete inputs. -/
def sampleRec1 : DonationRecord :=
  { id := 1, donation_amount := 1000, email := "a@example.com",
    first_name := none, last_name := none, card_name := none,
    country := none, postal_code := none,
    payment_intent_id := "pi_1", payment_intent_status := "pending",
    created_at := 10 }

def sampleRec2 : DonationRecord :=
  { id := 2, donation_amount := 2500, email := "b@example.com",
    first_name := some "Bea", last_name := none, card_name := none,
    country := some "US", postal_code := none,
    payment_intent_id := "pi_2", payment_intent_status := "succeeded",
    created_at := 20 }

/-- Witness for C1 at a concrete store and a concrete
`payment_intent.succeeded` event matching the first record. -/
theorem applyWebhookEvent_spec_witness :
    (applyWebhookEvent [sampleRec1, sampleRec2]
        { type := "payment_intent.succeeded", objectId := "pi_1" }).2 =
      { received := true } ∧
    (applyWebhookEvent [sampleRec1, sampleRec2]
        { type := "payment_intent.succeeded", objectId := "pi_1" }).1 =
      [{ sampleRec1 with payment_intent_status := "succeeded" }, sampleRec2] := by
  have h := applyWebhookEvent_spec [sampleRec1, sampleRec2]
    { type := "payment_intent.succeeded", objectId := "pi_1" }
  refine ⟨h.1, ?_⟩
  have h1 := (h.2.2.1 rfl 0 sampleRec1 rfl).1 rfl
  have h2 := (h.2.2.1 rfl 1 sampleRec2 rfl).2 (by decide)
  decide

/-!
## The `/create-payment-intent` handler

The handler destructures the body, rejects when `!donationAmount || !email`
(JavaScript falsiness: a missing field, the number 0, or the empty string),
computes `amountCents = Math.round(Number(donationAmount) * 100)`, rejects
when `amountCents <= 0`, then awaits `stripeInstance.paymentIntents.create`
and `dbRun(INSERT INTO donations ...)`; a thrown error from either await is
forwarded by `next(err)` to the catch-all handler, which answers 500.
Amounts are exact rationals; the Stripe call and the insert are modelled by
explicit outcome parameters.
-/

/-- Outcome of an awaited store write (`dbRun`). -/
inductive DbResult
  | ok
  | failed
deriving DecidableEq, Repr

/-- The fields of a Stripe PaymentIntent that the creation path reads. -/
structure PaymentIntent where
  id : String
  client_secret : String
deriving DecidableEq, Repr

/-- The parsed body of a `/create-payment-intent` request.  `donationAmount`
is a JavaScript number (modelled as an exact rational); absent fields are
`none`. -/
structure CreateReq where
  donationAmount : Option ℚ
  email : Option String
  firstName : Option String
  lastName : Option String
  cardName : Option String
  country : Option String
  postalCode : Option String
deriving DecidableEq, Repr

/-- Response of the creation handler: a 400 validation error with its
message, a 200 `{clientSecret}` body, or the catch-all 500. -/
inductive CreateResp
  | badRequest (msg : String)
  | ok (clientSecret : String)
  | serverError
deriving DecidableEq, Repr

/-- JavaScript `Math.round`: round half toward positive infinity. -/
def jsRound (q : ℚ) : Int := ⌊q + 1/2⌋

/-- Evaluation rule for `jsRound` at concrete rationals. -/
theorem jsRound_eq_of (q : ℚ) (n : Int) (h1 : (n : ℚ) ≤ q + 1/2) (h2 : q + 1/2 < n + 1) :
    jsRound q = n := by
  unfold jsRound
  rw [Int.floor_eq_iff]
  exact ⟨h1, h2⟩

/-- The `donations` table together with the store-assigned values: the next
`AUTOINCREMENT` id and the `CURRENT_TIMESTAMP` used for `created_at`. -/
structure Store where
  rows : List DonationRecord
  nextId : Nat
  now : Nat
deriving DecidableEq, Repr

/-- The SQL insert `INSERT INTO donations (...) VALUES (?, ..., ?, 'pending')`: appends one
row with the store-assigned id and timestamp. -/
def insertDonation (st : Store) (amountCents : Int) (email : String)
    (firstName lastName cardName country postalCode : Option String)
    (pid : String) : Store :=
  { rows := st.rows ++
      [{ id := st.nextId, donation_amount := amountCents, email := email,
         first_name := firstName, last_name := lastName, card_name := cardName,
         country := country, postal_code := postalCode,
         payment_intent_id := pid, payment_intent_status := "pending",
         created_at := st.now }],
    nextId := st.nextId + 1, now := st.now }

/-- The `/create-payment-intent` handler.  `stripeResult` is the outcome of
`stripeInstance.paymentIntents.create`; `insertResult` is the outcome of the
awaited insert.  The third component records the minor-unit amounts of the
`paymentIntents.create` calls actually issued, so that "no upstream call"
and "the amount sent to the processor" are expressible. -/
def createPaymentIntent (req : CreateReq) (stripeResult : Except Unit PaymentIntent)
    (insertResult : DbResult) (st : Store) : CreateResp × Store × List Int :=
  if req.donationAmount = none ∨ req.donationAmount = some 0 ∨
      req.email = none ∨ req.email = some "" then
    (.badRequest "Donation amount and email are required.", st, [])
  else
    let amountCents := jsRound ((req.donationAmount.getD 0) * 100)
    if amountCents ≤ 0 then
      (.badRequest "Invalid donation amount.", st, [])
    else
      match stripeResult with
      | .error _ => (.serverError, st, [amountCents])
      | .ok pi =>
        match insertResult with
        | .failed => (.serverError, st, [amountCents])
        | .ok =>
          (.ok pi.client_secret,
           insertDonation st amountCents (req.email.getD "")
             req.firstName req.lastName req.cardName req.country req.postalCode
             pi.id,
           [amountCents])

/-- C4: input validation.  If the donation amount is missing, or converts to
a non-positive number of cents, or the email is missing or empty, the
request is answered with a 400 validation error, the store is untouched,
no upstream authorization call is issued, and the outcome is independent of
the payment-processor and insert outcomes — so no DonationRecord is created
and no upstream authorization exists. -/
theorem createPaymentIntent_validation (req : CreateReq) (st : Store)
    (h : req.donationAmount = none ∨
      (∃ a : ℚ, req.donationAmount = some a ∧ jsRound (a * 100) ≤ 0) ∨
      req.email = none ∨ req.email = some "") :
    ∃ msg : String,
      ∀ (stripeResult : Except Unit PaymentIntent) (insertResult : DbResult),
        createPaymentIntent req stripeResult insertResult st = (.badRequest msg, st, []) := by
  by_cases hfirst : req.donationAmount = none ∨ req.donationAmount = some 0 ∨
      req.email = none ∨ req.email = some ""
  · exact ⟨"Donation amount and email are required.", fun sr ir => by
      unfold createPaymentIntent
      rw [if_pos hfirst]⟩
  · refine ⟨"Invalid donation amount.", fun sr ir => ?_⟩
    rcases h with h1 | ⟨a, ha, hle⟩ | h3 | h4
    · exact absurd (Or.inl h1) hfirst
    · unfold createPaymentIntent
      rw [if_neg hfirst]
      simp only [ha, Option.getD_some]
      rw [if_pos hle]
    · exact absurd (Or.inr (Or.inr (Or.inl h3))) hfirst
    · exact absurd (Or.inr (Or.inr (Or.inr h4))) hfirst

/-- Witness for C4 at a concrete request with a negative amount. -/
theorem createPaymentIntent_validation_witness :
    ∃ msg : String,
      ∀ (stripeResult : Except Unit PaymentIntent) (insertResult : DbResult),
        createPaymentIntent
          { donationAmount := some (-5), email := some "x@example.com",
            firstName := none, lastName := none, cardName := none,
            country := none, postalCode := none }
          stripeResult insertResult
          { rows := [], nextId := 1, now := 0 } =
        (.badRequest msg, { rows := [], nextId := 1, now := 0 }, []) :=
  createPaymentIntent_validation _ _
    (Or.inr (Or.inl ⟨-5, rfl, by
      rw [jsRound_eq_of ((-5 : ℚ) * 100) (-500) (by norm_num) (by norm_num)]
      norm_num⟩))

/-- On a valid request (amount present and rounding to a positive number of
cents, email present and non-empty) the handler reaches the processor call:
helper characterizing all three outcomes. -/
theorem createPaymentIntent_valid_eq (req : CreateReq) (st : Store)
    (stripeResult : Except Unit PaymentIntent) (insertResult : DbResult)
    (a : ℚ) (e : String)
    (ha : req.donationAmount = some a) (he : req.email = some e) (he' : e ≠ "")
    (hpos : 0 < jsRound (a * 100)) :
    createPaymentIntent req stripeResult insertResult st =
      match stripeResult with
      | .error _ => (.serverError, st, [jsRound (a * 100)])
      | .ok pi =>
        match insertResult with
        | .failed => (.serverError, st, [jsRound (a * 100)])
        | .ok =>
          (.ok pi.client_secret,
           insertDonation st (jsRound (a * 100)) e
             req.firstName req.lastName req.cardName req.country req.postalCode
             pi.id,
           [jsRound (a * 100)]) := by
  have ha0 : a ≠ 0 := by
    intro h0
    rw [h0] at hpos
    rw [jsRound_eq_of (0 * 100) 0 (by norm_num) (by norm_num)] at hpos
    exact lt_irrefl 0 hpos
  have hfirst : ¬(req.donationAmount = none ∨ req.donationAmount = some 0 ∨
      req.email = none ∨ req.email = some "") := by
    rintro (h1 | h2 | h3 | h4)
    · rw [ha] at h1; exact Option.noConfusion h1
    · rw [ha] at h2; exact ha0 (Option.some.inj h2)
    · rw [he] at h3; exact Option.noConfusion h3
    · rw [he] at h4; exact he' (Option.some.inj h4)
  unfold createPaymentIntent
  rw [if_neg hfirst]
  simp only [ha, he, Option.getD_some]
  rw [if_neg (not_le.mpr hpos)]

/-- C5: atomicity on upstream failure.  On a valid request, if the payment
processor call fails, the caller gets the catch-all 500 and the store is
exactly as before — no DonationRecord is persisted. -/
theorem createPaymentIntent_upstream_failure (req : CreateReq) (st : Store)
    (insertResult : DbResult) (a : ℚ) (e : String)
    (ha : req.donationAmount = some a) (he : req.email = some e) (he' : e ≠ "")
    (hpos : 0 < jsRound (a * 100)) :
    (createPaymentIntent req (.error ()) insertResult st).1 = .serverError ∧
    (createPaymentIntent req (.error ()) insertResult st).2.1 = st := by
  rw [createPaymentIntent_valid_eq req st (.error ()) insertResult a e ha he he' hpos]
  exact ⟨rfl, rfl⟩

/-- Witness for C5: a concrete valid request with a failing processor call. -/
theorem createPaymentIntent_upstream_failure_witness :
    (createPaymentIntent
      { donationAmount := some 10, email := some "x@example.com",
        firstName := none, lastName := none, cardName := none,
        country := none, postalCode := none }
      (.error ()) .ok
      { rows := [sampleRec1], nextId := 2, now := 5 }).1 = .serverError ∧
    (createPaymentIntent
      { donationAmount := some 10, email := some "x@example.com",
        firstName := none, lastName := none, cardName := none,
        country := none, postalCode := none }
      (.error ()) .ok
      { rows := [sampleRec1], nextId := 2, now := 5 }).2.1 =
      { rows := [sampleRec1], nextId := 2, now := 5 } :=
  createPaymentIntent_upstream_failure _ _ _ 10 "x@example.com" rfl rfl
    (by decide)
    (by rw [jsRound_eq_of ((10 : ℚ) * 100) 1000 (by norm_num) (by norm_num)]; norm_num)

/-- C6: success postcondition.  On a valid request where the processor call
and the insert both succeed, exactly one new DonationRecord is appended; it
has status `pending`, its payment-authorization id is the processor's id,
and the caller receives the processor's confirmation secret; when the
processor's id and secret are non-empty, so are the persisted id and the
returned secret. -/
theorem createPaymentIntent_success (req : CreateReq) (st : Store)
    (pi : PaymentIntent) (a : ℚ) (e : String)
    (ha : req.donationAmount = some a) (he : req.email = some e) (he' : e ≠ "")
    (hpos : 0 < jsRound (a * 100))
    (hid : pi.id ≠ "") (hcs : pi.client_secret ≠ "") :
    (createPaymentIntent req (.ok pi) .ok st).1 = .ok pi.client_secret ∧
    pi.client_secret ≠ "" ∧
    (∃ rec : DonationRecord,
      (createPaymentIntent req (.ok pi) .ok st).2.1.rows = st.rows ++ [rec] ∧
      rec.payment_intent_status = "pending" ∧
      rec.payment_intent_id = pi.id ∧
      rec.payment_intent_id ≠ "") := by
  rw [createPaymentIntent_valid_eq req st (.ok pi) .ok a e ha he he' hpos]
  exact ⟨rfl, hcs,
    ⟨{ id := st.nextId, donation_amount := jsRound (a * 100), email := e,
       first_name := req.firstName, last_name := req.lastName,
       card_name := req.cardName, country := req.country,
       postal_code := req.postalCode, payment_intent_id := pi.id,
       payment_intent_status := "pending", created_at := st.now },
     rfl, rfl, rfl, hid⟩⟩

/-- Witness for C6: a concrete valid request with a successful processor
call and insert. -/
theorem createPaymentIntent_success_witness :
    (createPaymentIntent
      { donationAmount := some 10, email := some "x@example.com",
        firstName := none, lastName := none, cardName := none,
        country := none, postalCode := none }
      (.ok { id := "pi_9", client_secret := "cs_9" }) .ok
      { rows := [], nextId := 1, now := 7 }).1 = .ok "cs_9" ∧
    ("cs_9" : String) ≠ "" ∧
    (∃ rec : DonationRecord,
      (createPaymentIntent
        { donationAmount := some 10, email := some "x@example.com",
          firstName := none, lastName := none, cardName := none,
          country := none, postalCode := none }
        (.ok { id := "pi_9", client_secret := "cs_9" }) .ok
        { rows := [], nextId := 1, now := 7 }).2.1.rows = [] ++ [rec] ∧
      rec.payment_intent_status = "pending" ∧
      rec.payment_intent_id = "pi_9" ∧
      rec.payment_intent_id ≠ "") :=
  createPaymentIntent_success _ _ _ 10 "x@example.com" rfl rfl (by decide)
    (by rw [jsRound_eq_of ((10 : ℚ) * 100) 1000 (by norm_num) (by norm_num)]; norm_num)
    (by decide) (by decide)

/-- C7: amount conversion.  On a valid request with amount `a` (in major
units), the amount sent to the processor and the persisted minor-unit amount
both equal `Math.round(a * 100)`, which is the integer `n` characterized by
`n ≤ a*100 + 1/2 < n + 1` — i.e. `a * 100` rounded half-up to an integer
number of cents. -/
theorem createPaymentIntent_amount_conversion (req : CreateReq) (st : Store)
    (pi : PaymentIntent) (a : ℚ) (e : String)
    (ha : req.donationAmount = some a) (he : req.email = some e) (he' : e ≠ "")
    (hpos : 0 < jsRound (a * 100)) :
    ∃ rec : DonationRecord,
      (createPaymentIntent req (.ok pi) .ok st).2.1.rows = st.rows ++ [rec] ∧
      (createPaymentIntent req (.ok pi) .ok st).2.2 = [rec.donation_amount] ∧
      rec.donation_amount = jsRound (a * 100) ∧
      ((rec.donation_amount : ℚ) ≤ a * 100 + 1/2 ∧
        a * 100 + 1/2 < (rec.donation_amount : ℚ) + 1) := by
  rw [createPaymentIntent_valid_eq req st (.ok pi) .ok a e ha he he' hpos]
  refine
    ⟨{ id := st.nextId, donation_amount := jsRound (a * 100), email := e,
       first_name := req.firstName, last_name := req.lastName,
       card_name := req.cardName, country := req.country,
       postal_code := req.postalCode, payment_intent_id := pi.id,
       payment_intent_status := "pending", created_at := st.now },
     rfl, rfl, rfl, ?_, ?_⟩
  · exact Int.floor_le (a * 100 + 1/2)
  · exact Int.lt_floor_add_one (a * 100 + 1/2)

/-- Witness for C7 at the spec's test points: input 12.345 persists and
transmits 1235 cents; input 10 persists and transmits 1000 cents. -/
theorem createPaymentIntent_amount_conversion_witness :
    (∃ rec : DonationRecord,
      (createPaymentIntent
        { donationAmount := some 12.345, email := some "x@example.com",
          firstName := none, lastName := none, cardName := none,
          country := none, postalCode := none }
        (.ok { id := "pi_9", client_secret := "cs_9" }) .ok
        { rows := [], nextId := 1, now := 7 }).2.1.rows = [] ++ [rec] ∧
      rec.donation_amount = 1235) ∧
    (∃ rec : DonationRecord,
      (createPaymentIntent
        { donationAmount := some 10, email := some "x@example.com",
          firstName := none, lastName := none, cardName := none,
          country := none, postalCode := none }
        (.ok { id := "pi_9", client_secret := "cs_9" }) .ok
        { rows := [], nextId := 1, now := 7 }).2.1.rows = [] ++ [rec] ∧
      rec.donation_amount = 1000) := by
  have h1235 : jsRound ((12.345 : ℚ) * 100) = 1235 :=
    jsRound_eq_of _ _ (by norm_num) (by norm_num)
  have h1000 : jsRound ((10 : ℚ) * 100) = 1000 :=
    jsRound_eq_of _ _ (by norm_num) (by norm_num)
  constructor
  · obtain ⟨rec, hrows, _, hamt, _⟩ :=
      createPaymentIntent_amount_conversion
        { donationAmount := some 12.345, email := some "x@example.com",
          firstName := none, lastName := none, cardName := none,
          country := none, postalCode := none }
        { rows := [], nextId := 1, now := 7 }
        { id := "pi_9", client_secret := "cs_9" } 12.345 "x@example.com"
        rfl rfl (by decide) (by rw [h1235]; norm_num)
    exact ⟨rec, hrows, by rw [hamt, h1235]⟩
  · obtain ⟨rec, hrows, _, hamt, _⟩ :=
      createPaymentIntent_amount_conversion
        { donationAmount := some 10, email := some "x@example.com",
          firstName := none, lastName := none, cardName := none,
          country := none, postalCode := none }
        { rows := [], nextId := 1, now := 7 }
        { id := "pi_9", client_secret := "cs_9" } 10 "x@example.com"
        rfl rfl (by decide) (by rw [h1000]; norm_num)
    exact ⟨rec, hrows, by rw [hamt, h1000]⟩

/-!
## The `GET /admin-api/donations` reconciliation pass

`SELECT * FROM donations ORDER BY created_at DESC`, then for each fetched
row still `pending`: `stripeInstance.paymentIntents.retrieve` (modelled by
the oracle `fetch`); if the reported status differs from the stored one, an
`UPDATE ... WHERE id = ?` (outcome modelled by `updOk`) and, only after the
awaited update returned, the in-memory assignment
`donation.payment_intent_status = paymentIntent.status`.  The whole body is
wrapped in a per-row try/catch, so a throw from the retrieve or the update
skips the rest of that row only.  The third component logs the upstream
queries and attempted store writes, so that "queries the processor" and
"is never written" are expressible.
-/

/-- Outcome of `stripeInstance.paymentIntents.retrieve` for one id. -/
inductive FetchResult
  | ok (status : String)
  | failed
deriving DecidableEq, Repr

/-- Observable external events of one reconciliation pass: an upstream
status query, or an attempted status write to the store. -/
inductive ReconEvent
  | fetched (pid : String)
  | wrote (donationId : Nat) (status : String)
deriving DecidableEq, Repr

/-- The SQL `UPDATE donations SET payment_intent_status = ? WHERE id = ?`. -/
def updateStatusById (store : List DonationRecord) (i : Nat) (status : String) :
    List DonationRecord :=
  store.map fun r =>
    if r.id = i then { r with payment_intent_status := status } else r

/-- One iteration of the reconciliation for-loop, for fetched row `r`
against the current table `store`.  Returns the new table, the in-memory
row pushed to the response, and the logged events. -/
def reconcileStep (fetch : String → FetchResult) (updOk : Nat → DbResult)
    (store : List DonationRecord) (r : DonationRecord) :
    List DonationRecord × DonationRecord × List ReconEvent :=
  if r.payment_intent_status = "pending" then
    match fetch r.payment_intent_id with
    | .ok s =>
      if s ≠ r.payment_intent_status then
        match updOk r.id with
        | .ok =>
          (updateStatusById store r.id s, { r with payment_intent_status := s },
           [.fetched r.payment_intent_id, .wrote r.id s])
        | .failed =>
          -- the awaited update threw: caught and logged, the in-memory
          -- assignment after it never runs
          (store, r, [.fetched r.payment_intent_id, .wrote r.id s])
      else (store, r, [.fetched r.payment_intent_id])
    | .failed => (store, r, [.fetched r.payment_intent_id])
  else (store, r, [])

/-- The reconciliation for-loop over the fetched rows. -/
def reconcileLoop (fetch : String → FetchResult) (updOk : Nat → DbResult) :
    List DonationRecord → List DonationRecord →
    List DonationRecord × List DonationRecord × List ReconEvent
  | store, [] => (store, [], [])
  | store, r :: rs =>
    let step := reconcileStep fetch updOk store r
    let rest := reconcileLoop fetch updOk step.1 rs
    (rest.1, step.2.1 :: rest.2.1, step.2.2 ++ rest.2.2)

/-- The sort order `ORDER BY created_at DESC`. -/
def createdDesc (a b : DonationRecord) : Prop := b.created_at ≤ a.created_at

instance : DecidableRel createdDesc := fun a b => Nat.decLe b.created_at a.created_at

instance : IsTotal DonationRecord createdDesc :=
  ⟨fun a b => Nat.le_total b.created_at a.created_at⟩

instance : IsTrans DonationRecord createdDesc :=
  ⟨fun _ _ _ hab hbc => Nat.le_trans hbc hab⟩

/-- The whole reconciliation pass: fetch all rows ordered by creation time
descending, then run the loop over them against the same table. -/
def listAndReconcile (fetch : String → FetchResult) (updOk : Nat → DbResult)
    (store : List DonationRecord) :
    List DonationRecord × List DonationRecord × List ReconEvent :=
  reconcileLoop fetch updOk store (List.insertionSort createdDesc store)

/-- Response of `GET /admin-api/donations` (for an authenticated session):
200 `{donations}` or the catch-all 500. -/
inductive DonationsResp
  | ok (donations : List DonationRecord)
  | serverError
deriving DecidableEq, Repr

/-- The `GET /admin-api/donations` handler for an authenticated session.
`readResult` is the outcome of the awaited initial `dbAll`; its failure is
forwarded by `next(err)` to the catch-all 500; per-row failures inside the
loop are caught there and never reach the catch-all. -/
def donationsEndpoint (fetch : String → FetchResult) (updOk : Nat → DbResult)
    (store : List DonationRecord) (readResult : DbResult) :
    DonationsResp × List DonationRecord × List ReconEvent :=
  match readResult with
  | .failed => (.serverError, store, [])
  | .ok =>
    let res := listAndReconcile fetch updOk store
    (.ok res.2.1, res.1, res.2.2)

/-- What one loop iteration for snapshot row `r` does to a table row `e`
sharing its id (analysis helper; `reconcileStep` is the faithful
definition). -/
def stepEffect (fetch : String → FetchResult) (updOk : Nat → DbResult)
    (r e : DonationRecord) : DonationRecord :=
  if r.payment_intent_status = "pending" then
    match fetch r.payment_intent_id with
    | .ok s =>
      if s ≠ r.payment_intent_status then
        match updOk r.id with
        | .ok => { e with payment_intent_status := s }
        | .failed => e
      else e
    | .failed => e
  else e

/-- Events logged by one loop iteration for snapshot row `r`. -/
def reconEventsOf (fetch : String → FetchResult) (r : DonationRecord) :
    List ReconEvent :=
  if r.payment_intent_status = "pending" then
    ReconEvent.fetched r.payment_intent_id ::
      (match fetch r.payment_intent_id with
       | .ok s => if s ≠ r.payment_intent_status then [ReconEvent.wrote r.id s] else []
       | .failed => [])
  else []

theorem stepEffect_id (fetch : String → FetchResult) (updOk : Nat → DbResult)
    (r e : DonationRecord) : (stepEffect fetch updOk r e).id = e.id := by
  unfold stepEffect
  by_cases hp : r.payment_intent_status = "pending"
  · cases hf : fetch r.payment_intent_id with
    | ok s =>
      by_cases hs : s = r.payment_intent_status
      · simp [hp, hf, hs]
      · have hs2 : ¬s = "pending" := by rw [hp] at hs; exact hs
        cases hu : updOk r.id with
        | ok => simp [hp, hf, hs, hs2, hu]
        | failed => simp [hp, hf, hs, hs2, hu]
    | failed => simp [hp, hf]
  · simp [hp]

theorem stepEffect_created_at (fetch : String → FetchResult) (updOk : Nat → DbResult)
    (r e : DonationRecord) : (stepEffect fetch updOk r e).created_at = e.created_at := by
  unfold stepEffect
  by_cases hp : r.payment_intent_status = "pending"
  · cases hf : fetch r.payment_intent_id with
    | ok s =>
      by_cases hs : s = r.payment_intent_status
      · simp [hp, hf, hs]
      · have hs2 : ¬s = "pending" := by rw [hp] at hs; exact hs
        cases hu : updOk r.id with
        | ok => simp [hp, hf, hs, hs2, hu]
        | failed => simp [hp, hf, hs, hs2, hu]
    | failed => simp [hp, hf]
  · simp [hp]

theorem reconcileStep_fst_getElem? (fetch : String → FetchResult) (updOk : Nat → DbResult)
    (cs : List DonationRecord) (r : DonationRecord) (i : Nat) :
    (reconcileStep fetch updOk cs r).1[i]? =
      cs[i]?.map (fun e => if e.id = r.id then stepEffect fetch updOk r e else e) := by
  by_cases hp : r.payment_intent_status = "pending"
  · cases hf : fetch r.payment_intent_id with
    | ok s =>
      by_cases hs : s = r.payment_intent_status
      · simp [reconcileStep, stepEffect, hp, hf, hs]
      · have hs2 : ¬s = "pending" := by rw [hp] at hs; exact hs
        cases hu : updOk r.id with
        | ok => simp [reconcileStep, stepEffect, updateStatusById, hp, hf, hs, hs2, hu]
        | failed => simp [reconcileStep, stepEffect, hp, hf, hs, hs2, hu]
    | failed => simp [reconcileStep, stepEffect, hp, hf]
  · simp [reconcileStep, stepEffect, hp]

theorem reconcileStep_out (fetch : String → FetchResult) (updOk : Nat → DbResult)
    (cs : List DonationRecord) (r : DonationRecord) :
    (reconcileStep fetch updOk cs r).2.1 = stepEffect fetch updOk r r := by
  by_cases hp : r.payment_intent_status = "pending"
  · cases hf : fetch r.payment_intent_id with
    | ok s =>
      by_cases hs : s = r.payment_intent_status
      · simp [reconcileStep, stepEffect, hp, hf, hs]
      · have hs2 : ¬s = "pending" := by rw [hp] at hs; exact hs
        cases hu : updOk r.id with
        | ok => simp [reconcileStep, stepEffect, hp, hf, hs, hs2, hu]
        | failed => simp [reconcileStep, stepEffect, hp, hf, hs, hs2, hu]
    | failed => simp [reconcileStep, stepEffect, hp, hf]
  · simp [reconcileStep, stepEffect, hp]

theorem reconcileStep_events (fetch : String → FetchResult) (updOk : Nat → DbResult)
    (cs : List DonationRecord) (r : DonationRecord) :
    (reconcileStep fetch updOk cs r).2.2 = reconEventsOf fetch r := by
  by_cases hp : r.payment_intent_status = "pending"
  · cases hf : fetch r.payment_intent_id with
    | ok s =>
      by_cases hs : s = r.payment_intent_status
      · simp [reconcileStep, reconEventsOf, hp, hf, hs]
      · have hs2 : ¬s = "pending" := by rw [hp] at hs; exact hs
        cases hu : updOk r.id with
        | ok => simp [reconcileStep, reconEventsOf, hp, hf, hs, hs2, hu]
        | failed => simp [reconcileStep, reconEventsOf, hp, hf, hs, hs2, hu]
    | failed => simp [reconcileStep, reconEventsOf, hp, hf]
  · simp [reconcileStep, reconEventsOf, hp]

theorem reconcileStep_fst_length (fetch : String → FetchResult) (updOk : Nat → DbResult)
    (cs : List DonationRecord) (r : DonationRecord) :
    (reconcileStep fetch updOk cs r).1.length = cs.length := by
  by_cases hp : r.payment_intent_status = "pending"
  · cases hf : fetch r.payment_intent_id with
    | ok s =>
      by_cases hs : s = r.payment_intent_status
      · simp [reconcileStep, hp, hf, hs]
      · have hs2 : ¬s = "pending" := by rw [hp] at hs; exact hs
        cases hu : updOk r.id with
        | ok => simp [reconcileStep, updateStatusById, hp, hf, hs, hs2, hu]
        | failed => simp [reconcileStep, hp, hf, hs, hs2, hu]
    | failed => simp [reconcileStep, hp, hf]
  · simp [reconcileStep, hp]

theorem reconcileLoop_out (fetch : String → FetchResult) (updOk : Nat → DbResult)
    (l : List DonationRecord) : ∀ cs : List DonationRecord,
    (reconcileLoop fetch updOk cs l).2.1 = l.map (fun r => stepEffect fetch updOk r r) := by
  induction l with
  | nil => intro cs; simp [reconcileLoop]
  | cons r rs ih =>
    intro cs
    simp only [reconcileLoop, List.map_cons]
    rw [reconcileStep_out, ih]

theorem reconcileLoop_events (fetch : String → FetchResult) (updOk : Nat → DbResult)
    (l : List DonationRecord) : ∀ cs : List DonationRecord,
    (reconcileLoop fetch updOk cs l).2.2 = (l.map (reconEventsOf fetch)).flatten := by
  induction l with
  | nil => intro cs; simp [reconcileLoop]
  | cons r rs ih =>
    intro cs
    simp only [reconcileLoop, List.map_cons, List.flatten_cons]
    rw [reconcileStep_events, ih]

theorem reconcileLoop_fst_length (fetch : String → FetchResult) (updOk : Nat → DbResult)
    (l : List DonationRecord) : ∀ cs : List DonationRecord,
    (reconcileLoop fetch updOk cs l).1.length = cs.length := by
  induction l with
  | nil => intro cs; simp [reconcileLoop]
  | cons r rs ih =>
    intro cs
    simp only [reconcileLoop]
    rw [ih, reconcileStep_fst_length]

/-- Master characterization of the loop's effect on the table: when the
iterated snapshot rows have pairwise-distinct ids, the final table row at
any position is the original row, transformed by the unique snapshot row
sharing its id (if any). -/
theorem reconcileLoop_fst_getElem_of_nodup (fetch : String → FetchResult)
    (updOk : Nat → DbResult) :
    ∀ (l cs : List DonationRecord),
      (l.map (fun r => r.id)).Nodup →
      ∀ (i : Nat) (e : DonationRecord), cs[i]? = some e →
        (reconcileLoop fetch updOk cs l).1[i]? =
          some (match l.find? (fun r => r.id = e.id) with
                | none => e
                | some r => stepEffect fetch updOk r e) := by
  intro l
  induction l with
  | nil =>
    intro cs _ i e he
    simp [reconcileLoop, he]
  | cons r rs ih =>
    intro cs hN i e he
    rw [List.map_cons] at hN
    have hNc := List.nodup_cons.mp hN
    have hN' : (rs.map (fun x => x.id)).Nodup := hNc.2
    have hstep : (reconcileStep fetch updOk cs r).1[i]? =
        some (if e.id = r.id then stepEffect fetch updOk r e else e) := by
      rw [reconcileStep_fst_getElem?, he]
      rfl
    by_cases hid : e.id = r.id
    · have hstep' : (reconcileStep fetch updOk cs r).1[i]? =
          some (stepEffect fetch updOk r e) := by
        rw [hstep, if_pos hid]
      have hrec := ih (reconcileStep fetch updOk cs r).1 hN' i
        (stepEffect fetch updOk r e) hstep'
      have hfind : rs.find? (fun x => x.id = (stepEffect fetch updOk r e).id) = none := by
        apply List.find?_eq_none.mpr
        intro x hx
        simp only [stepEffect_id, hid, decide_eq_true_eq]
        intro hxe
        exact hNc.1 (hxe ▸ List.mem_map_of_mem (fun y => y.id) hx)
      rw [hfind] at hrec
      have hloop : (reconcileLoop fetch updOk cs (r :: rs)).1 =
          (reconcileLoop fetch updOk (reconcileStep fetch updOk cs r).1 rs).1 := rfl
      rw [hloop, hrec]
      have hhead : (r :: rs).find? (fun x => x.id = e.id) = some r := by
        simp [List.find?, hid.symm]
      rw [hhead]
    · have hstep' : (reconcileStep fetch updOk cs r).1[i]? = some e := by
        rw [hstep, if_neg hid]
      have hrec := ih (reconcileStep fetch updOk cs r).1 hN' i e hstep'
      have hloop : (reconcileLoop fetch updOk cs (r :: rs)).1 =
          (reconcileLoop fetch updOk (reconcileStep fetch updOk cs r).1 rs).1 := rfl
      rw [hloop, hrec]
      have hhead : (r :: rs).find? (fun x => x.id = e.id) =
          rs.find? (fun x => x.id = e.id) := by
        have : (fun (x : DonationRecord) => decide (x.id = e.id)) r = false := by
          simp
          exact fun h => hid (h.symm)
        simp [List.find?, this]
      rw [hhead]

/-- With pairwise-distinct row ids, the reconciliation pass rewrites the
table pointwise: every row is replaced by its own reconciliation. -/
theorem listAndReconcile_fst_eq (fetch : String → FetchResult) (updOk : Nat → DbResult)
    (store : List DonationRecord)
    (hN : (store.map (fun r => r.id)).Nodup) :
    (listAndReconcile fetch updOk store).1 =
      store.map (fun r => stepEffect fetch updOk r r) := by
  have hperm : (List.insertionSort createdDesc store).Perm store :=
    List.perm_insertionSort createdDesc store
  have hNs : ((List.insertionSort createdDesc store).map (fun r => r.id)).Nodup :=
    ((hperm.map (fun r => r.id)).nodup_iff).mpr hN
  apply List.ext_getElem?
  intro i
  rcases he : store[i]? with _ | e
  · have hlen : store.length ≤ i := by
      by_contra hlt
      rw [List.getElem?_eq_getElem (Nat.lt_of_not_le hlt)] at he
      exact Option.noConfusion he
    have h1 : (listAndReconcile fetch updOk store).1.length ≤ i := by
      unfold listAndReconcile
      rw [reconcileLoop_fst_length]
      exact hlen
    have h2 : (store.map (fun r => stepEffect fetch updOk r r)).length ≤ i := by
      simpa using hlen
    rw [List.getElem?_eq_none h1, List.getElem?_eq_none h2]
  · have hmem : e ∈ store := List.getElem?_mem he
    have hmems : e ∈ List.insertionSort createdDesc store := hperm.mem_iff.mpr hmem
    have hfindSome : ((List.insertionSort createdDesc store).find?
        (fun x => x.id = e.id)).isSome :=
      List.find?_isSome.mpr ⟨e, hmems, by simp⟩
    obtain ⟨r, hr⟩ := Option.isSome_iff_exists.mp hfindSome
    have hrid : r.id = e.id := by
      have := List.find?_some hr
      simpa using this
    have hrmem : r ∈ store := hperm.mem_iff.mp (List.mem_of_find?_eq_some hr)
    have hre : r = e := List.inj_on_of_nodup_map hN hrmem hmem hrid
    have := reconcileLoop_fst_getElem_of_nodup fetch updOk
      (List.insertionSort createdDesc store) store hNs i e he
    unfold listAndReconcile
    rw [this, hr, hre, List.getElem?_map, he]
    rfl

/-- The returned list is the sorted snapshot with every row replaced by its
own reconciliation. -/
theorem listAndReconcile_out_eq (fetch : String → FetchResult) (updOk : Nat → DbResult)
    (store : List DonationRecord) :
    (listAndReconcile fetch updOk store).2.1 =
      (List.insertionSort createdDesc store).map (fun r => stepEffect fetch updOk r r) :=
  reconcileLoop_out fetch updOk (List.insertionSort createdDesc store) store

/-- The logged events of a pass are exactly the per-row events of the sorted
snapshot. -/
theorem listAndReconcile_events_eq (fetch : String → FetchResult) (updOk : Nat → DbResult)
    (store : List DonationRecord) :
    (listAndReconcile fetch updOk store).2.2 =
      ((List.insertionSort createdDesc store).map (reconEventsOf fetch)).flatten :=
  reconcileLoop_events fetch updOk (List.insertionSort createdDesc store) store

/-- Event membership characterization for a pass. -/
theorem listAndReconcile_mem_events (fetch : String → FetchResult) (updOk : Nat → DbResult)
    (store : List DonationRecord) (ev : ReconEvent) :
    ev ∈ (listAndReconcile fetch updOk store).2.2 ↔
      ∃ r ∈ store, ev ∈ reconEventsOf fetch r := by
  rw [listAndReconcile_events_eq]
  rw [List.mem_flatten]
  constructor
  · rintro ⟨l, hl, hev⟩
    obtain ⟨r, hr, rfl⟩ := List.mem_map.mp hl
    exact ⟨r, (List.perm_insertionSort createdDesc store).mem_iff.mp hr, hev⟩
  · rintro ⟨r, hr, hev⟩
    exact ⟨reconEventsOf fetch r, List.mem_map_of_mem (reconEventsOf fetch)
      ((List.perm_insertionSort createdDesc store).mem_iff.mpr hr), hev⟩

theorem mem_reconEventsOf_wrote (fetch : String → FetchResult) (r : DonationRecord)
    (i : Nat) (s : String) :
    ReconEvent.wrote i s ∈ reconEventsOf fetch r ↔
      r.payment_intent_status = "pending" ∧ i = r.id ∧
        fetch r.payment_intent_id = .ok s ∧ s ≠ "pending" := by
  unfold reconEventsOf
  by_cases hp : r.payment_intent_status = "pending"
  · rw [if_pos hp]
    cases hf : fetch r.payment_intent_id with
    | ok s2 =>
      dsimp only
      by_cases hs : s2 ≠ r.payment_intent_status
      · rw [if_pos hs]
        constructor
        · intro h
          rcases List.mem_cons.mp h with h1 | h2
          · cases h1
          · have h3 := List.mem_singleton.mp h2
            injection h3 with hid hst
            refine ⟨hp, hid, by rw [hst], ?_⟩
            rw [hst]
            rw [hp] at hs
            exact hs
        · rintro ⟨_, hid, hok, hsp⟩
          injection hok with hss
          apply List.mem_cons_of_mem
          apply List.mem_singleton.mpr
          rw [hid, hss]
      · rw [if_neg hs]
        push_neg at hs
        constructor
        · intro h
          have h1 := List.mem_singleton.mp h
          cases h1
        · rintro ⟨_, _, hok, hsp⟩
          injection hok with hss
          exact absurd (by rw [← hss, hs, hp]) hsp
    | failed =>
      dsimp only
      constructor
      · intro h
        have h1 := List.mem_singleton.mp h
        cases h1
      · rintro ⟨_, _, hok, _⟩
        cases hok
  · rw [if_neg hp]
    constructor
    · intro h
      cases h
    · rintro ⟨hpp, _, _, _⟩
      exact absurd hpp hp

theorem mem_reconEventsOf_fetched (fetch : String → FetchResult) (r : DonationRecord)
    (pid : String) :
    ReconEvent.fetched pid ∈ reconEventsOf fetch r ↔
      r.payment_intent_status = "pending" ∧ pid = r.payment_intent_id := by
  unfold reconEventsOf
  by_cases hp : r.payment_intent_status = "pending"
  · rw [if_pos hp]
    cases hf : fetch r.payment_intent_id with
    | ok s2 =>
      dsimp only
      by_cases hs : s2 ≠ r.payment_intent_status
      · rw [if_pos hs]
        constructor
        · intro h
          rcases List.mem_cons.mp h with h1 | h2
          · injection h1 with hpid
            exact ⟨hp, hpid⟩
          · have h3 := List.mem_singleton.mp h2
            cases h3
        · rintro ⟨_, hpid⟩
          rw [hpid]
          exact List.mem_cons_self _ _
      · rw [if_neg hs]
        constructor
        · intro h
          have h1 := List.mem_singleton.mp h
          injection h1 with hpid
          exact ⟨hp, hpid⟩
        · rintro ⟨_, hpid⟩
          rw [hpid]
          exact List.mem_singleton.mpr rfl
    | failed =>
      dsimp only
      constructor
      · intro h
        have h1 := List.mem_singleton.mp h
        injection h1 with hpid
        exact ⟨hp, hpid⟩
      · rintro ⟨_, hpid⟩
        rw [hpid]
        exact List.mem_singleton.mpr rfl
  · rw [if_neg hp]
    constructor
    · intro h
      cases h
    · rintro ⟨hpp, _⟩
      exact absurd hpp hp

/-- C2: ListAndReconcile postcondition.  With pairwise-distinct row ids
(the table's primary key) and all store updates succeeding: the endpoint
answers 200 with the reconciled list; the returned list is ordered by
creation time descending and is a permutation of the final store; the final
store keeps its length; pointwise, every `pending` row is queried upstream
and — exactly when the reported status differs from the stored one — its
status is written and updated in store and result, while every non-`pending`
row is returned byte-for-byte unchanged and is never written. -/
theorem listAndReconcile_spec (fetch : String → FetchResult) (store : List DonationRecord)
    (hN : (store.map (fun r => r.id)).Nodup) :
    ((donationsEndpoint fetch (fun _ => DbResult.ok) store .ok).1 =
      DonationsResp.ok (listAndReconcile fetch (fun _ => DbResult.ok) store).2.1) ∧
    ((listAndReconcile fetch (fun _ => DbResult.ok) store).2.1.Pairwise
      (fun a b => b.created_at ≤ a.created_at)) ∧
    ((listAndReconcile fetch (fun _ => DbResult.ok) store).2.1.Perm
      (listAndReconcile fetch (fun _ => DbResult.ok) store).1) ∧
    ((listAndReconcile fetch (fun _ => DbResult.ok) store).1.length = store.length) ∧
    (∀ (i : Nat) (e : DonationRecord), store[i]? = some e →
      ∃ e2 : DonationRecord,
        (listAndReconcile fetch (fun _ => DbResult.ok) store).1[i]? = some e2 ∧
        (e.payment_intent_status = "pending" →
          (ReconEvent.fetched e.payment_intent_id ∈
            (listAndReconcile fetch (fun _ => DbResult.ok) store).2.2) ∧
          (∀ s : String, fetch e.payment_intent_id = .ok s →
            (s ≠ "pending" → e2 = { e with payment_intent_status := s }) ∧
            (s = "pending" → e2 = e))) ∧
        (e.payment_intent_status ≠ "pending" → e2 = e)) ∧
    (∀ (i : Nat) (s : String),
      ReconEvent.wrote i s ∈ (listAndReconcile fetch (fun _ => DbResult.ok) store).2.2 ↔
        ∃ r ∈ store, i = r.id ∧ r.payment_intent_status = "pending" ∧
          fetch r.payment_intent_id = .ok s ∧ s ≠ "pending") ∧
    (∀ e ∈ store, e.payment_intent_status ≠ "pending" →
      ∀ s : String, ReconEvent.wrote e.id s ∉
        (listAndReconcile fetch (fun _ => DbResult.ok) store).2.2) := by
  have hwrote : ∀ (i : Nat) (s : String),
      ReconEvent.wrote i s ∈ (listAndReconcile fetch (fun _ => DbResult.ok) store).2.2 ↔
        ∃ r ∈ store, i = r.id ∧ r.payment_intent_status = "pending" ∧
          fetch r.payment_intent_id = .ok s ∧ s ≠ "pending" := by
    intro i s
    rw [listAndReconcile_mem_events]
    constructor
    · rintro ⟨r, hr, hev⟩
      obtain ⟨h1, h2, h3, h4⟩ := (mem_reconEventsOf_wrote fetch r i s).mp hev
      exact ⟨r, hr, h2, h1, h3, h4⟩
    · rintro ⟨r, hr, h2, h1, h3, h4⟩
      exact ⟨r, hr, (mem_reconEventsOf_wrote fetch r i s).mpr ⟨h1, h2, h3, h4⟩⟩
  refine ⟨rfl, ?_, ?_, ?_, ?_, hwrote, ?_⟩
  · rw [listAndReconcile_out_eq]
    apply List.pairwise_map.mpr
    apply List.Pairwise.imp ?_ (List.sorted_insertionSort createdDesc store)
    intro a b hab
    rw [stepEffect_created_at, stepEffect_created_at]
    exact hab
  · rw [listAndReconcile_out_eq, listAndReconcile_fst_eq fetch _ store hN]
    exact (List.perm_insertionSort createdDesc store).map _
  · rw [listAndReconcile_fst_eq fetch _ store hN]
    simp
  · intro i e he
    refine ⟨stepEffect fetch (fun _ => DbResult.ok) e e, ?_, ?_, ?_⟩
    · rw [listAndReconcile_fst_eq fetch _ store hN, List.getElem?_map, he]
      rfl
    · intro hp
      constructor
      · exact (listAndReconcile_mem_events fetch _ store _).mpr
          ⟨e, List.getElem?_mem he,
            (mem_reconEventsOf_fetched fetch e e.payment_intent_id).mpr ⟨hp, rfl⟩⟩
      · intro s hfok
        constructor
        · intro hs
          unfold stepEffect
          rw [if_pos hp, hfok]
          dsimp only
          rw [hp]
          rw [if_pos hs]
        · intro hs
          unfold stepEffect
          rw [if_pos hp, hfok]
          dsimp only
          rw [hp]
          rw [if_neg (not_not_intro hs)]
    · intro hp
      unfold stepEffect
      rw [if_neg hp]
  · intro e he hnp s hmem
    obtain ⟨r, hr, hid, hrp, _, _⟩ := (hwrote e.id s).mp hmem
    have hre : r = e := List.inj_on_of_nodup_map hN hr (by exact he) hid.symm
    rw [hre] at hrp
    exact hnp hrp

/-- Upstream oracle used by the C2 witness: reports `succeeded` for the
pending sample record's authorization id, fails on everything else. -/
def wfetch : String → FetchResult :=
  fun pid => if pid = "pi_1" then .ok "succeeded" else .failed

/-- Witness for C2 at a concrete two-row store: the pending row is queried,
reported `succeeded`, and updated in the final store. -/
theorem listAndReconcile_spec_witness :
    ∃ e2 : DonationRecord,
      (listAndReconcile wfetch (fun _ => DbResult.ok) [sampleRec2, sampleRec1]).1[1]? =
        some e2 ∧
      e2 = { sampleRec1 with payment_intent_status := "succeeded" } := by
  obtain ⟨e2, hget, hp2, _⟩ :=
    (listAndReconcile_spec wfetch [sampleRec2, sampleRec1] (by decide)).2.2.2.2.1
      1 sampleRec1 rfl
  have h3 := ((hp2 (by decide)).2 "succeeded" (by decide)).1 (by decide)
  exact ⟨e2, hget, h3⟩

/-- C3: failure tolerance of the reconciliation pass.  With
pairwise-distinct row ids, if the upstream lookup fails for record `rf`,
the pass still answers 200 with the full ordered list: `rf` keeps its
stored status (in store and result), and every other record is reconciled
exactly as when no failure is present — the failure changes no other
record's status, presence or order. -/
theorem listAndReconcile_failure_tolerance (fetch : String → FetchResult)
    (store : List DonationRecord) (rf : DonationRecord)
    (hN : (store.map (fun r => r.id)).Nodup)
    (hrf : rf ∈ store) (hfail : fetch rf.payment_intent_id = .failed) :
    ((donationsEndpoint fetch (fun _ => DbResult.ok) store .ok).1 =
      DonationsResp.ok (listAndReconcile fetch (fun _ => DbResult.ok) store).2.1) ∧
    ((listAndReconcile fetch (fun _ => DbResult.ok) store).2.1.Perm
      (listAndReconcile fetch (fun _ => DbResult.ok) store).1) ∧
    ((listAndReconcile fetch (fun _ => DbResult.ok) store).1.length = store.length) ∧
    ((listAndReconcile fetch (fun _ => DbResult.ok) store).2.1.Pairwise
      (fun a b => b.created_at ≤ a.created_at)) ∧
    (∀ i : Nat, store[i]? = some rf →
      (listAndReconcile fetch (fun _ => DbResult.ok) store).1[i]? = some rf) ∧
    (rf ∈ (listAndReconcile fetch (fun _ => DbResult.ok) store).2.1) ∧
    (∀ (i : Nat) (e : DonationRecord), store[i]? = some e → e.id ≠ rf.id →
      ∃ e2 : DonationRecord,
        (listAndReconcile fetch (fun _ => DbResult.ok) store).1[i]? = some e2 ∧
        (e.payment_intent_status = "pending" →
          ∀ s : String, fetch e.payment_intent_id = .ok s →
            (s ≠ "pending" → e2 = { e with payment_intent_status := s }) ∧
            (s = "pending" → e2 = e)) ∧
        (e.payment_intent_status ≠ "pending" → e2 = e)) := by
  have hrfstep : stepEffect fetch (fun _ => DbResult.ok) rf rf = rf := by
    unfold stepEffect
    by_cases hp : rf.payment_intent_status = "pending"
    · rw [if_pos hp, hfail]
    · rw [if_neg hp]
  refine ⟨rfl, ?_, ?_, ?_, ?_, ?_, ?_⟩
  · rw [listAndReconcile_out_eq, listAndReconcile_fst_eq fetch _ store hN]
    exact (List.perm_insertionSort createdDesc store).map _
  · rw [listAndReconcile_fst_eq fetch _ store hN]
    simp
  · rw [listAndReconcile_out_eq]
    apply List.pairwise_map.mpr
    apply List.Pairwise.imp ?_ (List.sorted_insertionSort createdDesc store)
    intro a b hab
    rw [stepEffect_created_at, stepEffect_created_at]
    exact hab
  · intro i he
    rw [listAndReconcile_fst_eq fetch _ store hN, List.getElem?_map, he]
    dsimp only [Option.map_some']
    rw [hrfstep]
  · rw [listAndReconcile_out_eq]
    have hmem : rf ∈ List.insertionSort createdDesc store :=
      (List.perm_insertionSort createdDesc store).mem_iff.mpr hrf
    have h5 := List.mem_map_of_mem
      (fun r => stepEffect fetch (fun _ => DbResult.ok) r r) hmem
    dsimp only at h5
    rw [hrfstep] at h5
    exact h5
  · intro i e he _
    refine ⟨stepEffect fetch (fun _ => DbResult.ok) e e, ?_, ?_, ?_⟩
    · rw [listAndReconcile_fst_eq fetch _ store hN, List.getElem?_map, he]
      rfl
    · intro hp s hfok
      constructor
      · intro hs
        unfold stepEffect
        rw [if_pos hp, hfok]
        dsimp only
        rw [hp]
        rw [if_pos hs]
      · intro hs
        unfold stepEffect
        rw [if_pos hp, hfok]
        dsimp only
        rw [hp]
        rw [if_neg (not_not_intro hs)]
    · intro hp
      unfold stepEffect
      rw [if_neg hp]

/-- Third sample row (pending, latest) for the C3 witness. -/
def sampleRec3 : DonationRecord :=
  { id := 3, donation_amount := 700, email := "c@example.com",
    first_name := none, last_name := none, card_name := none,
    country := none, postal_code := none,
    payment_intent_id := "pi_3", payment_intent_status := "pending",
    created_at := 30 }

/-- Upstream oracle used by the C3 witness: fails for the first pending
record's authorization id, reports `succeeded` for the third record's. -/
def wfetch2 : String → FetchResult :=
  fun pid => if pid = "pi_3" then .ok "succeeded" else .failed

/-- Witness for C3 at a concrete three-row store: the lookup for
`sampleRec1` fails, yet `sampleRec1` is returned unchanged in the store and
`sampleRec3` is still reconciled to `succeeded`. -/
theorem listAndReconcile_failure_tolerance_witness :
    ((listAndReconcile wfetch2 (fun _ => DbResult.ok)
        [sampleRec1, sampleRec2, sampleRec3]).1[0]? = some sampleRec1) ∧
    (∃ e2 : DonationRecord,
      (listAndReconcile wfetch2 (fun _ => DbResult.ok)
        [sampleRec1, sampleRec2, sampleRec3]).1[2]? = some e2 ∧
      e2 = { sampleRec3 with payment_intent_status := "succeeded" }) := by
  have h := listAndReconcile_failure_tolerance wfetch2
    [sampleRec1, sampleRec2, sampleRec3] sampleRec1 (by decide)
    (List.mem_cons_self _ _) (by decide)
  refine ⟨h.2.2.2.2.1 0 rfl, ?_⟩
  obtain ⟨e2, hget, hp2, _⟩ := h.2.2.2.2.2.2 2 sampleRec3 rfl (by decide)
  exact ⟨e2, hget, (hp2 (by decide) "succeeded" (by decide)).1 (by decide)⟩

/-!
## Persistence-failure behaviour (C8)

The webhook handler issues its `dbRun(UPDATE ...)` without awaiting it: the
promise's `.catch` only logs, and `res.json({ received: true })` runs
unconditionally.  The reconciliation pass catches per-row `dbRun` failures
inside the loop.  Only awaited store operations on the request path (the
creation INSERT, the initial `dbAll`/`dbGet` reads) reach `next(err)` and
the catch-all 500.
-/

/-- Webhook response including the would-be 500 alternative. -/
inductive WebhookResp
  | ack
  | serverError
deriving DecidableEq, Repr

/-- The `/webhook` handler with the outcome of its fire-and-forget status
update made explicit: the update's failure is caught and logged by the
`.catch`, and the acknowledgement is sent regardless. -/
def applyWebhookEventF (store : List DonationRecord) (event : StripeEvent)
    (updResult : DbResult) : List DonationRecord × WebhookResp :=
  if event.type = "payment_intent.succeeded" then
    match updResult with
    | .ok => (updateStatusByPid store event.objectId "succeeded", .ack)
    | .failed => (store, .ack)
  else (store, .ack)

/-- C8 counterexample: a `payment_intent.succeeded` webhook whose store
update fails is still acknowledged with `{received: true}` — the caller
does not receive a 500 PersistenceError. -/
theorem webhook_persistence_failure_counterexample :
    (applyWebhookEventF [sampleRec1]
        { type := "payment_intent.succeeded", objectId := "pi_1" } .failed).2 =
      WebhookResp.ack ∧
    WebhookResp.ack ≠ WebhookResp.serverError ∧
    (applyWebhookEventF [sampleRec1]
        { type := "payment_intent.succeeded", objectId := "pi_1" } .failed).1 =
      [sampleRec1] := by
  refine ⟨rfl, by decide, rfl⟩

/-- C8 (amended): awaited store operations surface as 500 — a failing
creation INSERT yields the catch-all 500 with no row persisted, and a
failing initial read on the donations endpoint yields 500; but the
webhook's fire-and-forget status update failure is caught and the caller
still receives the success acknowledgement with the store unchanged, and
the reconciliation pass answers 200 with the full list regardless of
per-row update outcomes. -/
theorem persistence_error_surfacing_amended (req : CreateReq) (st : Store)
    (pi : PaymentIntent) (a : ℚ) (e : String)
    (ha : req.donationAmount = some a) (he : req.email = some e) (he' : e ≠ "")
    (hpos : 0 < jsRound (a * 100)) :
    ((createPaymentIntent req (.ok pi) .failed st).1 = .serverError ∧
      (createPaymentIntent req (.ok pi) .failed st).2.1 = st) ∧
    (∀ (fetch : String → FetchResult) (updOk : Nat → DbResult)
        (store : List DonationRecord),
      donationsEndpoint fetch updOk store .failed = (.serverError, store, [])) ∧
    (∀ (store : List DonationRecord) (event : StripeEvent),
      (applyWebhookEventF store event .failed).2 = .ack ∧
      (applyWebhookEventF store event .failed).1 = store) ∧
    (∀ (fetch : String → FetchResult) (updOk : Nat → DbResult)
        (store : List DonationRecord),
      (donationsEndpoint fetch updOk store .ok).1 =
        DonationsResp.ok (listAndReconcile fetch updOk store).2.1) := by
  refine ⟨?_, fun _ _ _ => rfl, ?_, fun _ _ _ => rfl⟩
  · rw [createPaymentIntent_valid_eq req st (.ok pi) .failed a e ha he he' hpos]
    exact ⟨rfl, rfl⟩
  · intro store event
    unfold applyWebhookEventF
    by_cases ht : event.type = "payment_intent.succeeded"
    · rw [if_pos ht]
      exact ⟨rfl, rfl⟩
    · rw [if_neg ht]
      exact ⟨rfl, rfl⟩

/-- Witness for the amended C8 at a concrete valid creation request. -/
theorem persistence_error_surfacing_amended_witness :
    (createPaymentIntent
      { donationAmount := some 10, email := some "x@example.com",
        firstName := none, lastName := none, cardName := none,
        country := none, postalCode := none }
      (.ok { id := "pi_9", client_secret := "cs_9" }) .failed
      { rows := [], nextId := 1, now := 0 }).1 = .serverError ∧
    (donationsEndpoint wfetch (fun _ => DbResult.ok) [sampleRec1] .failed).1 =
      DonationsResp.serverError ∧
    (applyWebhookEventF [sampleRec1]
        { type := "payment_intent.succeeded", objectId := "pi_1" } .failed).2 =
      WebhookResp.ack := by
  have h := persistence_error_surfacing_amended
    { donationAmount := some 10, email := some "x@example.com",
      firstName := none, lastName := none, cardName := none,
      country := none, postalCode := none }
    { rows := [], nextId := 1, now := 0 }
    { id := "pi_9", client_secret := "cs_9" } 10 "x@example.com"
    rfl rfl (by decide)
    (by rw [jsRound_eq_of ((10 : ℚ) * 100) 1000 (by norm_num) (by norm_num)]; norm_num)
  refine ⟨h.1.1, ?_, (h.2.2.1 [sampleRec1]
    { type := "payment_intent.succeeded", objectId := "pi_1" }).1⟩
  rw [h.2.1 wfetch (fun _ => DbResult.ok) [sampleRec1]]

/-!
## Admin identity: registration and login

`POST /admin-api/register`: missing or empty username/password → 400;
`isFirstUser` is `COUNT(*) === 0`; when not first and no session → 401;
otherwise bcrypt-hash the password and INSERT (the `username TEXT UNIQUE`
column makes a duplicate INSERT throw, reaching the catch-all 500).
`POST /admin-api/login`: missing fields → 400; `SELECT * FROM admin_users
WHERE username = ?` (first match); unknown username and wrong password both
answer 401 `{error: 'Invalid credentials.'}`.  `bcrypt.hash` and
`bcrypt.compare` are modelled as explicit function parameters.
-/

/-- A row of the `admin_users` table (`password` holds the bcrypt hash). -/
structure AdminAccount where
  id : Nat
  username : String
  password : String
deriving DecidableEq, Repr

/-- Response of `POST /admin-api/register`. -/
inductive RegisterResp
  | badRequest
  | unauthorized
  | registered
  | serverError
deriving DecidableEq, Repr

/-- The `/admin-api/register` handler.  `sessionUser` is
`req.session.user`'s id when a session exists; `hash` models
`bcrypt.hash (· , 10)`; `nextId` is the store-assigned autoincrement id. -/
def registerAdmin (sessionUser : Option Nat) (username password : Option String)
    (accounts : List AdminAccount) (hash : String → String) (nextId : Nat) :
    RegisterResp × List AdminAccount :=
  if username = none ∨ username = some "" ∨ password = none ∨ password = some "" then
    (.badRequest, accounts)
  else
    if ¬(accounts.length = 0) ∧ sessionUser = none then
      (.unauthorized, accounts)
    else
      let u := username.getD ""
      if accounts.any (fun acc => acc.username = u) then
        (.serverError, accounts)
      else
        (.registered,
         accounts ++ [{ id := nextId, username := u, password := hash (password.getD "") }])

/-- Response of `POST /admin-api/login`. -/
inductive LoginResp
  | badRequest (msg : String)
  | unauthorized (msg : String)
  | success (uid : Nat) (username : String)
deriving DecidableEq, Repr

/-- The `/admin-api/login` handler.  `checkPw p h` models
`bcrypt.compare(p, h)`; a successful login stores `{id, username}` in the
session, modelled by the `success` payload. -/
def loginAdmin (username password : Option String) (accounts : List AdminAccount)
    (checkPw : String → String → Bool) : LoginResp :=
  if username = none ∨ username = some "" ∨ password = none ∨ password = some "" then
    .badRequest "Username and password are required."
  else
    match accounts.find? (fun acc => acc.username = username.getD "") with
    | none => .unauthorized "Invalid credentials."
    | some user =>
      if checkPw (password.getD "") user.password then
        .success user.id user.username
      else
        .unauthorized "Invalid credentials."

/-- C9: registration bootstrap rule.  With both fields present and
non-empty: an unauthenticated request succeeds exactly when zero accounts
exist (and then creates account #1); once any account exists every
unauthenticated attempt is answered 401 and creates no account; an
authenticated session permits creation (for a fresh username the account is
appended). -/
theorem registerAdmin_bootstrap (u p : String) (hu : u ≠ "") (hp : p ≠ "")
    (accounts : List AdminAccount) (hash : String → String) (nextId : Nat) :
    ((registerAdmin none (some u) (some p) accounts hash nextId).1 = .registered ↔
      accounts = []) ∧
    (accounts ≠ [] →
      registerAdmin none (some u) (some p) accounts hash nextId =
        (.unauthorized, accounts)) ∧
    (accounts = [] →
      registerAdmin none (some u) (some p) accounts hash nextId =
        (.registered, [{ id := nextId, username := u, password := hash p }])) ∧
    (∀ uid : Nat, (∀ acc ∈ accounts, acc.username ≠ u) →
      registerAdmin (some uid) (some u) (some p) accounts hash nextId =
        (.registered, accounts ++ [{ id := nextId, username := u, password := hash p }])) := by
  have hfields : ¬((some u : Option String) = none ∨ (some u : Option String) = some "" ∨
      (some p : Option String) = none ∨ (some p : Option String) = some "") := by
    rintro (h1 | h2 | h3 | h4)
    · exact Option.noConfusion h1
    · exact hu (Option.some.inj h2)
    · exact Option.noConfusion h3
    · exact hp (Option.some.inj h4)
  have hempty : registerAdmin none (some u) (some p) [] hash nextId =
      (.registered, [{ id := nextId, username := u, password := hash p }]) := by
    unfold registerAdmin
    rw [if_neg hfields]
    rw [if_neg (by simp)]
    rw [if_neg (by simp)]
    rfl
  have hnonempty : accounts ≠ [] →
      registerAdmin none (some u) (some p) accounts hash nextId =
        (.unauthorized, accounts) := by
    intro hne
    unfold registerAdmin
    rw [if_neg hfields]
    rw [if_pos ⟨fun h0 => hne (List.length_eq_zero.mp h0), rfl⟩]
  refine ⟨?_, hnonempty, fun he => by rw [he]; exact hempty, ?_⟩
  · constructor
    · intro hreg
      by_contra hne
      rw [hnonempty hne] at hreg
      exact RegisterResp.noConfusion hreg
    · intro he
      rw [he, hempty]
  · intro uid hfresh
    unfold registerAdmin
    rw [if_neg hfields]
    rw [if_neg (by rintro ⟨_, h⟩; exact Option.noConfusion h)]
    rw [if_neg (by
      rw [List.any_eq_true]
      rintro ⟨acc, hacc, hacc2⟩
      exact hfresh acc hacc (by simpa using hacc2))]
    rfl

/-- Witness for C9: with no accounts an unauthenticated registration
creates account #1; with that account present a second unauthenticated
attempt is rejected 401 and mutates nothing. -/
theorem registerAdmin_bootstrap_witness :
    ((registerAdmin none (some "admin") (some "pw") [] (fun s => s ++ "#h") 1).1 =
      .registered ↔ ([] : List AdminAccount) = []) ∧
    (registerAdmin none (some "admin2") (some "pw2")
        [{ id := 1, username := "admin", password := "pw#h" }] (fun s => s ++ "#h") 2 =
      (.unauthorized, [{ id := 1, username := "admin", password := "pw#h" }])) := by
  refine ⟨(registerAdmin_bootstrap "admin" "pw" (by decide) (by decide) []
    (fun s => s ++ "#h") 1).1, ?_⟩
  exact (registerAdmin_bootstrap "admin2" "pw2" (by decide) (by decide)
    [{ id := 1, username := "admin", password := "pw#h" }]
    (fun s => s ++ "#h") 2).2.1 (by decide)

/-- C10: login non-enumeration.  For two failing login requests with both
fields present and non-empty — one for an existing username with a wrong
password, one for a username that matches no account — the responses are
the identical generic 401 `{error: 'Invalid credentials.'}`. -/
theorem loginAdmin_no_enumeration (accounts : List AdminAccount)
    (checkPw : String → String → Bool)
    (u1 p1 u2 p2 : String) (acc : AdminAccount)
    (hu1 : u1 ≠ "") (hp1 : p1 ≠ "") (hu2 : u2 ≠ "") (hp2 : p2 ≠ "")
    (hfound : accounts.find? (fun a => a.username = u1) = some acc)
    (hwrong : checkPw p1 acc.password = false)
    (hmiss : accounts.find? (fun a => a.username = u2) = none) :
    loginAdmin (some u1) (some p1) accounts checkPw =
      .unauthorized "Invalid credentials." ∧
    loginAdmin (some u2) (some p2) accounts checkPw =
      loginAdmin (some u1) (some p1) accounts checkPw := by
  have hfields1 : ¬((some u1 : Option String) = none ∨ (some u1 : Option String) = some "" ∨
      (some p1 : Option String) = none ∨ (some p1 : Option String) = some "") := by
    rintro (h1 | h2 | h3 | h4)
    · exact Option.noConfusion h1
    · exact hu1 (Option.some.inj h2)
    · exact Option.noConfusion h3
    · exact hp1 (Option.some.inj h4)
  have hfields2 : ¬((some u2 : Option String) = none ∨ (some u2 : Option String) = some "" ∨
      (some p2 : Option String) = none ∨ (some p2 : Option String) = some "") := by
    rintro (h1 | h2 | h3 | h4)
    · exact Option.noConfusion h1
    · exact hu2 (Option.some.inj h2)
    · exact Option.noConfusion h3
    · exact hp2 (Option.some.inj h4)
  have h1 : loginAdmin (some u1) (some p1) accounts checkPw =
      .unauthorized "Invalid credentials." := by
    unfold loginAdmin
    rw [if_neg hfields1]
    dsimp only [Option.getD_some]
    rw [hfound]
    dsimp only
    rw [hwrong]
    rfl
  have h2 : loginAdmin (some u2) (some p2) accounts checkPw =
      .unauthorized "Invalid credentials." := by
    unfold loginAdmin
    rw [if_neg hfields2]
    dsimp only [Option.getD_some]
    rw [hmiss]
  exact ⟨h1, h2.trans h1.symm⟩

/-- Witness for C10 at a concrete store: wrong password for the existing
`admin` and any password for the unknown `ghost` get the same response. -/
theorem loginAdmin_no_enumeration_witness :
    loginAdmin (some "admin") (some "wrong")
        [{ id := 1, username := "admin", password := "secret#h" }]
        (fun p h => p ++ "#h" = h) =
      .unauthorized "Invalid credentials." ∧
    loginAdmin (some "ghost") (some "whatever")
        [{ id := 1, username := "admin", password := "secret#h" }]
        (fun p h => p ++ "#h" = h) =
      loginAdmin (some "admin") (some "wrong")
        [{ id := 1, username := "admin", password := "secret#h" }]
        (fun p h => p ++ "#h" = h) :=
  loginAdmin_no_enumeration
    [{ id := 1, username := "admin", password := "secret#h" }]
    (fun p h => p ++ "#h" = h)
    "admin" "wrong" "ghost" "whatever"
    { id := 1, username := "admin", password := "secret#h" }
    (by decide) (by decide) (by decide) (by decide)
    (by decide) (by decide) (by decide)
